import Mathlib

/-!
Verification of the ratchet tensor-compiler core: a shallow embedding of the
Concat operation (`crates/ratchet-core/src/ops/concat.rs`), the operation
error model (`crates/ratchet-core/src/op.rs`), the uniform metadata packer,
and the executable dispatch engine (`crates/ratchet/src/executable.rs`),
together with proofs of the spec's testable properties about them.
-/

namespace Ratchet

/-- Tensor element dtype. The repository's full `DType` enum is not under the
sources provided; the spec names `f32`/`f16` as the dtypes with generated
kernels and requires that unsupported dtypes exist (the `CompileError` arm of
`build_kernel` is reachable). Modelled from the spec: `I32` stands for an
integer dtype with no generated concat kernel. -/
inductive DType where
  | F32
  | F16
  | I32
deriving DecidableEq

/-- Rust `{:?}` debug rendering of a `DType` variant. -/
def DType.debugStr : DType → String
  | .F32 => "F32"
  | .F16 => "F16"
  | .I32 => "I32"

/-- The slice of a `Tensor` that the Concat compiler path reads: its shape and
dtype. Storage handles and strides of inputs are recomputed from shapes in the
code paths modelled here. -/
structure Tensor where
  shape : List Nat
  dt : DType
deriving DecidableEq

/-- `Tensor::rank`: number of dimensions. -/
def Tensor.rank (t : Tensor) : Nat := t.shape.length

/-- `Concat { inputs, dim }` from `concat.rs`. -/
structure Concat where
  inputs : List Tensor
  dim : Nat
deriving DecidableEq

/-- `Shape::numel`: product of all dimensions. -/
def numel (shape : List Nat) : Nat := shape.prod

/-- `Strides::from(&Shape)`: contiguous row-major strides, the stride of a
dimension being the product of all later dimensions. -/
def stridesFrom : List Nat → List Nat
  | [] => []
  | _ :: rest => numel rest :: stridesFrom rest

/-- `Shape::promote(shape, rank)`: left-pad the shape with 1s up to `rank`. -/
def promote (shape : List Nat) (rank : Nat) : List Nat :=
  List.replicate (rank - shape.length) 1 ++ shape

/-- `StorageView`: computed output shape + dtype + strides. -/
structure StorageView where
  shape : List Nat
  dt : DType
  strides : List Nat
deriving DecidableEq

/-- `Concat::compute_view` (`concat.rs:94-101`): the output shape is the first
input's shape with the concat axis replaced by the sum of all inputs' sizes
along that axis; dtype is the first input's; strides are contiguous. Returns
`none` where the Rust indexes `inputs[0]` of an empty list (a panic). -/
def Concat.compute_view (c : Concat) : Option StorageView :=
  match c.inputs with
  | [] => none
  | first :: _ =>
    let stackedDim := (c.inputs.map (fun x => x.shape.getD c.dim 0)).sum
    let outputShape := first.shape.set c.dim stackedDim
    some ⟨outputShape, first.dt, stridesFrom outputShape⟩

/-- `OpGuards::check_shapes` for Concat (`concat.rs:104-127`) as a decidable
check: the conjunction of the assertions, in source order. `false` means some
assertion fails (a panic in the Rust). -/
def Concat.check_shapes (c : Concat) : Bool :=
  match c.inputs with
  | [] => false
  | first :: _ =>
    decide (1 < c.inputs.length) &&
    decide (c.inputs.length ≤ 8) &&
    c.inputs.all (fun x => x.rank == first.rank && decide (x.rank ≤ 4)) &&
    c.inputs.all (fun x => decide (c.dim < x.rank)) &&
    (List.range c.dim).all (fun axis =>
      c.inputs.all (fun x => x.shape.getD axis 0 == first.shape.getD axis 0)) &&
    (List.range' (c.dim + 1) (first.rank - (c.dim + 1))).all (fun axis =>
      c.inputs.all (fun x => x.shape.getD axis 0 == first.shape.getD axis 0))

/-- `OpGuards::check_dtypes` for Concat (`concat.rs:129-131`): all inputs share
the first input's dtype. -/
def Concat.check_dtypes (c : Concat) : Bool :=
  match c.inputs with
  | [] => true
  | first :: _ => c.inputs.all (fun x => x.dt == first.dt)

/-- The precondition violations enumerated by the claim: fewer than 2 or more
than 8 inputs, rank above 4 or mismatched ranks, concat axis out of range,
mismatched non-concat dimensions, or mismatched dtypes. -/
def Concat.ViolatesPrecondition (c : Concat) : Prop :=
  c.inputs.length < 2 ∨
  8 < c.inputs.length ∨
  (∃ x ∈ c.inputs, 4 < x.rank) ∨
  (∃ x ∈ c.inputs, ∃ y ∈ c.inputs, x.rank ≠ y.rank) ∨
  (∃ x ∈ c.inputs, x.rank ≤ c.dim) ∨
  (∃ x ∈ c.inputs, ∃ y ∈ c.inputs, ∃ axis, axis ≠ c.dim ∧ axis < x.rank ∧
    axis < y.rank ∧ x.shape.getD axis 0 ≠ y.shape.getD axis 0) ∨
  (∃ x ∈ c.inputs, ∃ y ∈ c.inputs, x.dt ≠ y.dt)

/-- `OperationError` (`op.rs:39-49`). Payloads other than the compile-error
message are elided. -/
inductive OperationError where
  | compileError (msg : String)
  | storageLayoutError
  | invariantError
  | uniformError
deriving DecidableEq

/-- `KernelElement`: vectorization width of a generated kernel. -/
inductive KernelElement where
  | scalar
  | vec2
  | vec4
deriving DecidableEq

/-- `KernelElement::as_str`. -/
def KernelElement.asStr : KernelElement → String
  | .scalar => "scalar"
  | .vec2 => "vec2"
  | .vec4 => "vec4"

/-- Rust `{:?}` debug rendering of a `KernelElement` variant. -/
def KernelElement.debugStr : KernelElement → String
  | .scalar => "Scalar"
  | .vec2 => "Vec2"
  | .vec4 => "Vec4"

/-- `Concat::kernel_element` (`concat.rs:149-151`): always `Scalar`. -/
def Concat.kernel_element (_c : Concat) (_dst : Tensor) : KernelElement :=
  KernelElement.scalar

/-- `Concat::kernel_key` (`concat.rs:143-147`):
`format!("concat{}_{}", num_inputs, kernel_element)`. -/
def Concat.kernel_key (c : Concat) (_inplace : Bool) (dst : Tensor) : String :=
  "concat" ++ toString c.inputs.length ++ "_" ++ (c.kernel_element dst).asStr

/-- `WorkgroupCount::div_ceil`. Modelled from the spec: the helper lives in the
gpu module, not under the sources provided; the spec defines it as ceiling
division. -/
def divCeil (a b : Nat) : Nat := (a + b - 1) / b

/-- `Concat::calculate_dispatch` (`concat.rs:153-163`). The numeric value of
`WorkgroupCount::MAX_WGS_PER_DIM` is a device-limit constant not under the
sources provided, so the limit is a parameter `limit` here. -/
def Concat.calculate_dispatch (_c : Concat) (limit : Nat) (dst : Tensor) :
    Nat × Nat × Nat :=
  let xGroups := divCeil (numel dst.shape) 64
  if xGroups > limit then (limit, divCeil xGroups limit, 1)
  else (xGroups, 1, 1)

/-- A WGSL primitive type `P` (`Scalar<T>`, `Vec2<T>`, `Vec4<T>`): the element
dtype plus the vectorization width 1, 2 or 4. -/
structure WgslPrim where
  dtype : String
  width : Nat
deriving DecidableEq

/-- WGSL rendering of a primitive: `f32`, `vec2<f16>`, ... -/
def WgslPrim.render (p : WgslPrim) : String :=
  match p.width with
  | 2 => "vec2<" ++ p.dtype ++ ">"
  | 4 => "vec4<" ++ p.dtype ++ ">"
  | _ => p.dtype

/-- WGSL rendering of `Array<P>`. -/
def WgslPrim.arrayRender (p : WgslPrim) : String := "array<" ++ p.render ++ ">"

/-- Generated kernel source, structured: workgroup size, declared builtins,
storage bindings (name, binding mode, WGSL type), the uniform binding, the
generated index-conversion helpers, and the main-function blocks in emission
order. Equality of two values is byte-identity of the rendered source. -/
structure KernelSource where
  workgroupSize : Nat × Nat × Nat
  builtins : List String
  bindings : List (String × String × String)
  uniformBound : Bool
  helpers : List String
  body : List String
deriving DecidableEq

/-- Outcome of building a kernel: generated source, a returned error, or a
Rust `panic!` (modelled explicitly because `register_bindings` panics). -/
inductive BuildResult where
  | ok (source : KernelSource)
  | err (e : OperationError)
  | panicked (msg : String)
deriving DecidableEq

/-- True exactly on the `panicked` outcome. -/
def BuildResult.isPanic : BuildResult → Bool
  | .panicked _ => true
  | _ => false

/-- `Concat::register_bindings` (`concat.rs:20-34`): panics unless `inplace`;
otherwise registers one read-only storage binding `X{i}` of type `Array<P>`
per input, then the uniform binding. -/
def Concat.register_bindings (c : Concat) (p : WgslPrim) (inplace : Bool) :
    Except String (List (String × String × String) × Bool) :=
  if !inplace then .error "Only inplace concat is supported"
  else .ok
    ((List.range c.inputs.length).map
      (fun i => ("X" ++ toString i, "ReadOnly", p.arrayRender)), true)

/-- Main-body header block of the concat kernel (`concat.rs:56-65`): flat
destination offset reconstruction, bounds check, offset-to-index conversion. -/
def concatBodyHeader : String :=
  "let x_offset = group_id.x * 64u; " ++
  "let dst_offset = (group_id.y * num_groups.x * 64u) + x_offset + local_index; " ++
  "if (dst_offset >= metadata.dst_numel) \x7b return; \x7d " ++
  "var dst_index = offsetToNdIndex(dst_offset, metadata.dst_stride); " ++
  "let dim = metadata.dim;"

/-- First guarded block of the concat kernel (`concat.rs:67-72`). -/
def concatBodyBlock0 : String :=
  "if(dst_index[dim] < metadata.cum0) \x7b " ++
  "let src_offset = ndIndexToOffset(dst_index, metadata.x0_stride); " ++
  "Y[dst_offset] = X0[src_offset]; \x7d"

/-- Guarded block `i ≥ 1` of the concat kernel (`concat.rs:74-87`): shifts the
axis index down by the previous cumulative sum, then copies from `X{i}`. -/
def concatBodyBlock (i : Nat) : String :=
  "if(dst_index[dim] < metadata.cum" ++ toString i ++ ") \x7b " ++
  "dst_index[dim] -= metadata.cum" ++ toString (i - 1) ++ "; " ++
  "let src_offset = ndIndexToOffset(dst_index, metadata.x" ++ toString i ++
  "_stride); " ++
  "Y[dst_offset] = X" ++ toString i ++ "[src_offset]; \x7d"

/-- `Concat::build_concat` (`concat.rs:36-90`): assembles builtins, bindings,
the index helpers and the guarded copy blocks into kernel source. The device
compute-features argument of the builder does not influence the concat source
and is elided. A `register_bindings` panic propagates as `panicked`. -/
def Concat.build_concat (c : Concat) (p : WgslPrim) (inplace : Bool)
    (_dst : Tensor) (workgroupSize : Nat × Nat × Nat) : BuildResult :=
  match c.register_bindings p inplace with
  | .error msg => .panicked msg
  | .ok (binds, uni) =>
    .ok
      { workgroupSize := workgroupSize
        builtins := ["LocalInvocationIndex", "NumWorkgroups", "WorkgroupId"]
        bindings := binds
        uniformBound := uni
        helpers := ["offsetToNdIndex", "ndIndexToOffset"]
        body := concatBodyHeader :: concatBodyBlock0 ::
          (List.range' 1 (c.inputs.length - 1)).map concatBodyBlock }

/-- `Concat::build_kernel` (`concat.rs:218-250`): dispatch on the destination
dtype and the kernel element; combinations outside `{F32, F16} ×
{Scalar, Vec2, Vec4}` fail with a `CompileError` naming the pair. -/
def Concat.build_kernel (c : Concat) (inplace : Bool) (dst : Tensor)
    (workgroupSize : Nat × Nat × Nat) : BuildResult :=
  match dst.dt, c.kernel_element dst with
  | .F32, .scalar => c.build_concat ⟨"f32", 1⟩ inplace dst workgroupSize
  | .F32, .vec2 => c.build_concat ⟨"f32", 2⟩ inplace dst workgroupSize
  | .F32, .vec4 => c.build_concat ⟨"f32", 4⟩ inplace dst workgroupSize
  | .F16, .scalar => c.build_concat ⟨"f16", 1⟩ inplace dst workgroupSize
  | .F16, .vec2 => c.build_concat ⟨"f16", 2⟩ inplace dst workgroupSize
  | .F16, .vec4 => c.build_concat ⟨"f16", 4⟩ inplace dst workgroupSize
  | dt, ke =>
    .err (.compileError
      ("Unsupported dtype " ++ dt.debugStr ++ " or kernel element " ++
        ke.debugStr))

/-- `Operation::supports_inplace` default (`op.rs:73-75`): `false`. -/
def supportsInplaceDefault : Bool := false

/-- `UNIFORM_ALIGN`: the fixed per-slot alignment of the uniform metadata
buffer. Its defining module is not under the sources provided; the value is
the WebGPU minimum dynamic uniform-offset alignment, 256 bytes. -/
def UNIFORM_ALIGN : Nat := 256

/-- Round `n` up to the next multiple of `a`. -/
def roundUp (n a : Nat) : Nat := divCeil n a * a

/-- `CpuUniform`, the uniform metadata packer. Modelled from the spec (§4.4):
its module is not under the sources provided. A growable byte buffer with a
write cursor; `structStart` is the aligned offset at which the struct
currently being packed begins. Byte contents are elided; only the layout
(cursor positions and offsets) is modelled. -/
structure CpuUniform where
  cursor : Nat
  structStart : Nat
deriving DecidableEq

/-- A fresh packer: empty buffer, cursor at 0. -/
def CpuUniform.init : CpuUniform := ⟨0, 0⟩

/-- Modelled from the spec (§4.4): `write_struct_end` rounds the cursor up to
the fixed per-slot boundary and returns that rounded offset, which starts the
next struct. -/
def CpuUniform.write_struct_end (u : CpuUniform) : Nat × CpuUniform :=
  let r := roundUp u.cursor UNIFORM_ALIGN
  (r, ⟨r, r⟩)

/-- Modelled from the spec (§4.4): `write_struct_member` aligns the cursor to
the member's alignment and appends the member's bytes, returning the member's
offset; a write that would exceed the fixed per-op slot size fails with
`UniformError` and leaves the packer untouched. -/
def CpuUniform.write_struct_member (u : CpuUniform) (align size : Nat) :
    Except OperationError (Nat × CpuUniform) :=
  let off := roundUp u.cursor align
  if UNIFORM_ALIGN < off + size - u.structStart then .error .uniformError
  else .ok (off, ⟨off + size, u.structStart⟩)

/-- A member write whose `Result` the Rust discards with `let _ = ...`: on
error the packer is left unchanged and packing continues. -/
def CpuUniform.writeMemberIgnored (u : CpuUniform) (align size : Nat) :
    CpuUniform :=
  match u.write_struct_member align size with
  | .ok (_, u') => u'
  | .error _ => u

/-- The input-strides loop of `Concat::write_metadata` (`concat.rs:201-203`):
one `UVec4` member (16-byte size and alignment) per input, results ignored. -/
def CpuUniform.writeStridesLoop (u : CpuUniform) : Nat → CpuUniform
  | 0 => u
  | k + 1 => (u.writeMemberIgnored 16 16).writeStridesLoop k

/-- The cumulative-sum loop of `Concat::write_metadata` (`concat.rs:208-210`):
one `u32` member per input, errors propagated with `?`. -/
def CpuUniform.writeCumsumLoop (u : CpuUniform) :
    Nat → Except OperationError CpuUniform
  | 0 => .ok u
  | k + 1 =>
    match u.write_struct_member 4 4 with
    | .error e => .error e
    | .ok (_, u') => u'.writeCumsumLoop k

/-- `Concat::write_metadata` (`concat.rs:172-216`), layout part: an initial
`write_struct_end` (aligning the cursor before the struct starts), one `UVec4`
per input stride, the destination stride `UVec4`, the `u32` destination numel,
one `u32` per cumulative sum, the `u32` promoted dim, and a final
`write_struct_end` whose rounded offset minus `UNIFORM_ALIGN` is returned.
The values written (strides, numel, cumulative sums, dim) are elided; the
member count and sizes — which fix every offset — depend only on the input
count. Returns `none` where the Rust indexes `inputs[0]` of an empty list. -/
def Concat.write_metadata (c : Concat) (u0 : CpuUniform) (_dst : Tensor) :
    Option (Except OperationError (Nat × CpuUniform)) :=
  match c.inputs with
  | [] => none
  | _ :: _ =>
    let n := c.inputs.length
    let u1 := (u0.write_struct_end).2
    let u2 := u1.writeStridesLoop n
    let u3 := u2.writeMemberIgnored 16 16
    let u4 := u3.writeMemberIgnored 4 4
    match u4.writeCumsumLoop n with
    | .error e => some (.error e)
    | .ok u5 =>
      let u6 := u5.writeMemberIgnored 4 4
      some (.ok ((u6.write_struct_end).1 - UNIFORM_ALIGN,
        (u6.write_struct_end).2))

/-- Packed byte size of Concat's metadata struct: `n + 1` `UVec4` members of
16 bytes and `n + 2` `u32` members of 4 bytes. -/
def Concat.metaSize (c : Concat) : Nat := 20 * c.inputs.length + 24

/-- `OpMetadata::__IS_VALID_META` (`op.rs:53-61`): the compile-time check that
a metadata struct's size fits the fixed alignment bound. -/
def isValidMeta (size : Nat) : Bool := size ≤ UNIFORM_ALIGN

/-- A sequence of `write_metadata` calls against one packer, returning the
offsets in call order. -/
def runMetadataWrites (ps : List (Concat × Tensor)) (u : CpuUniform) :
    Option (Except OperationError (List Nat × CpuUniform)) :=
  match ps with
  | [] => some (.ok ([], u))
  | (c, dst) :: rest =>
    match c.write_metadata u dst with
    | none => none
    | some (.error e) => some (.error e)
    | some (.ok (off, u')) =>
      match runMetadataWrites rest u' with
      | none => none
      | some (.error e) => some (.error e)
      | some (.ok (offs, u'')) => some (.ok (off :: offs, u''))

/-- Wrap-around bound of WGSL `u32` arithmetic. -/
def U32LIMIT : Nat := 4294967296

/-- Wrapping `u32` subtraction `a - b` for `b < 2^32`. -/
def u32sub (a b : Nat) : Nat := (a + U32LIMIT - b) % U32LIMIT

/-- Modelled from the spec: the `offsetToNdIndex` helper generated by
`kernel_builder.write_offset_to_index` (not under the sources provided)
converts a flat offset into a multi-dimensional index by successive division
by the strides. -/
def offsetToNdIndex (offset : Nat) (strides : List Nat) : List Nat :=
  (strides.foldl (fun acc s => (acc.1 ++ [acc.2 / s], acc.2 % s))
    (([] : List Nat), offset)).1

/-- Modelled from the spec: the `ndIndexToOffset` helper generated by
`kernel_builder.write_index_to_offset` (not under the sources provided) is the
dot product of index and strides, in `u32` arithmetic. -/
def ndIndexToOffset (index strides : List Nat) : Nat :=
  (List.zipWith (· * ·) index strides).sum % U32LIMIT

/-- Running cumulative sums, as computed by the `scan` in
`Concat::write_metadata` (`concat.rs:192-199`). -/
def cumsum (acc : Nat) : List Nat → List Nat
  | [] => []
  | x :: xs => (acc + x) :: cumsum (acc + x) xs

/-- One write performed by the generated concat kernel: the source tensor
index and the flat source offset read from it. -/
structure KWrite where
  src : Nat
  srcOffset : Nat
deriving DecidableEq

/-- Semantics of guarded block `i ≥ 1` of the generated kernel
(`concat.rs:80-86`) on the mutable state (`dst_index`, writes so far): if the
axis index is below `cum i`, subtract `cum (i-1)` from it (wrapping `u32`
subtraction) and append a copy from `X i`. -/
def concatTailBlock (cum : List Nat) (strides : List (List Nat)) (pdim : Nat)
    (state : List Nat × List KWrite) (i : Nat) : List Nat × List KWrite :=
  let (idx, ws) := state
  if idx.getD pdim 0 < cum.getD i 0 then
    let idx' := idx.set pdim (u32sub (idx.getD pdim 0) (cum.getD (i - 1) 0))
    (idx', ws ++ [⟨i, ndIndexToOffset idx' (strides.getD i [])⟩])
  else state

/-- Trace semantics of the generated concat kernel main function
(`concat.rs:56-90`) at one destination offset, with the metadata that
`write_metadata` packs for this op (`concat.rs:178-212`): bounds check, then
the guarded block for `X0` (no index shift), then the guarded blocks for
`X1..`, executed in sequence on the mutable `dst_index`. Returns the list of
writes to `Y[dst_offset]` in execution order; the last write is the value the
destination element holds after the kernel. -/
def Concat.kernelWrites (c : Concat) (dst : Tensor) (dstOffset : Nat) :
    List KWrite :=
  match c.inputs with
  | [] => []
  | first :: _ =>
    let promotedDim := c.dim + (4 - first.rank)
    let inputShapes := c.inputs.map (fun x => promote x.shape 4)
    let inputStrides := inputShapes.map stridesFrom
    let cum := cumsum 0 (inputShapes.map (fun s => s.getD promotedDim 0))
    let dstShape := promote dst.shape 4
    let dstStrides := stridesFrom dstShape
    if numel dstShape ≤ dstOffset then []
    else
      let dstIndex := offsetToNdIndex dstOffset dstStrides
      let w0 : List KWrite :=
        if dstIndex.getD promotedDim 0 < cum.getD 0 0 then
          [⟨0, ndIndexToOffset dstIndex (inputStrides.getD 0 [])⟩]
        else []
      ((List.range' 1 (c.inputs.length - 1)).foldl
        (concatTailBlock cum inputStrides promotedDim) (dstIndex, w0)).2

/-- `CompiledOp` (the slice the dispatch engine reads): pipeline handle,
ordered storage bind groups, dynamic uniform offset, workgroup counts. Handles
are opaque naturals. -/
structure CompiledOp where
  pipelineHandle : Nat
  storageGroups : List Nat
  offset : Nat
  workgroupCount : Nat × Nat × Nat
deriving DecidableEq

/-- `Executable` (`executable.rs:10-15`): ordered compiled steps plus the one
shared uniform bind group (the kept-alive buffer handle is elided). -/
structure Executable where
  steps : List CompiledOp
  uniformGroup : Nat
deriving DecidableEq

/-- One recorded GPU command inside a compute pass. -/
inductive GpuCommand where
  | setPipeline (handle : Nat)
  | setBindGroup (index : Nat) (group : Nat) (dynamicOffsets : List Nat)
  | dispatchWorkgroups (x y z : Nat)
deriving DecidableEq

/-- True exactly on a `dispatchWorkgroups` command. -/
def GpuCommand.isDispatch : GpuCommand → Bool
  | .dispatchWorkgroups _ _ _ => true
  | _ => false

/-- One submitted command buffer: its list of compute passes, each a command
list. -/
structure Submission where
  passes : List (List GpuCommand)
deriving DecidableEq

/-- `Executable::dispatch_operations` (`executable.rs:19-44`): one encoder, one
compute pass; for each step in order set its pipeline, set its storage bind
groups at indices `0..k`, set the shared uniform group at index `k` with the
step's dynamic offset, and dispatch its workgroup counts; then submit the one
finished command buffer. The result is the list of submissions issued. -/
def Executable.dispatch_operations (e : Executable) : List Submission :=
  let cpass := e.steps.foldl
    (fun acc step =>
      acc ++
        ([GpuCommand.setPipeline step.pipelineHandle]
          ++ step.storageGroups.enum.map
            (fun ig => GpuCommand.setBindGroup ig.1 ig.2 [])
          ++ [GpuCommand.setBindGroup step.storageGroups.length e.uniformGroup
                [step.offset],
              GpuCommand.dispatchWorkgroups step.workgroupCount.1
                step.workgroupCount.2.1 step.workgroupCount.2.2]))
    []
  [⟨[cpass]⟩]

/-- The command block one step contributes to the compute pass: its pipeline,
its storage bind groups at indices `0..k`, the shared uniform group at index
`k` with the step's dynamic offset, and its dispatch. -/
def Executable.stepCommands (e : Executable) (step : CompiledOp) :
    List GpuCommand :=
  [GpuCommand.setPipeline step.pipelineHandle]
    ++ step.storageGroups.enum.map
      (fun ig => GpuCommand.setBindGroup ig.1 ig.2 [])
    ++ [GpuCommand.setBindGroup step.storageGroups.length e.uniformGroup
          [step.offset],
        GpuCommand.dispatchWorkgroups step.workgroupCount.1
          step.workgroupCount.2.1 step.workgroupCount.2.2]

/-- Result of a compile step together with the number of device calls it made
before returning. -/
structure CompileTrace where
  result : Except OperationError (StorageView × (Nat × Nat × Nat))
  deviceCalls : Nat

/-- Modelled from the spec (§4.1, §7): the `compile` orchestration and the
`OpGuards`-to-`InvariantError` plumbing are not under the sources provided.
Per the spec, compile runs the invariant checks first and fails with
`InvariantError` before any device work when they are violated; the
Concat-specific checks themselves are `check_shapes`/`check_dtypes` translated
from `concat.rs`. On success, output-view inference and dispatch calculation
run, and device calls (pipeline build, uniform buffer write) follow. -/
def Concat.compile (c : Concat) (limit : Nat) (dst : Tensor) : CompileTrace :=
  if c.check_shapes && c.check_dtypes then
    match c.compute_view with
    | some view => ⟨.ok (view, c.calculate_dispatch limit dst), 2⟩
    | none => ⟨.error .invariantError, 0⟩
  else ⟨.error .invariantError, 0⟩

/-! Concrete instances used to instantiate the theorems below. -/

/-- An `f32` tensor of shape `[2, 2]`. -/
def tF32 : Tensor := ⟨[2, 2], .F32⟩

/-- An `f16` tensor of shape `[2, 2]`. -/
def tF16 : Tensor := ⟨[2, 2], .F16⟩

/-- An `i32` tensor of shape `[2, 2]`. -/
def tI32 : Tensor := ⟨[2, 2], .I32⟩

/-- Two-input `f32` concat along axis 0. -/
def pairF32 : Concat := ⟨[tF32, tF32], 0⟩

/-- Two-input `f16` concat along axis 0: differs from `pairF32` only in
dtype. -/
def pairF16 : Concat := ⟨[tF16, tF16], 0⟩

/-- Two-input `i32` concat along axis 0: a dtype with no generated kernel. -/
def pairI32 : Concat := ⟨[tI32, tI32], 0⟩

/-- Destination of `pairF32`. -/
def dstPairF32 : Tensor := ⟨[4, 2], .F32⟩

/-- Destination of `pairF16`. -/
def dstPairF16 : Tensor := ⟨[4, 2], .F16⟩

/-- Destination of `pairI32`. -/
def dstPairI32 : Tensor := ⟨[4, 2], .I32⟩

/-- A workgroup size, as in the repository's kernel-render test. -/
def wgsDefault : Nat × Nat × Nat := (128, 1, 1)

/-- A concat with a single input: violates the two-input minimum. -/
def singleInputConcat : Concat := ⟨[tF32], 0⟩

/-- The spec scenario inputs: shapes `[4,2,50,128]`, `[4,2,13,128]`,
`[4,2,77,128]`, `[4,2,55,128]`, `[4,2,11,128]`, all `f32`. -/
def scenarioInputs : List Tensor :=
  [⟨[4, 2, 50, 128], .F32⟩, ⟨[4, 2, 13, 128], .F32⟩, ⟨[4, 2, 77, 128], .F32⟩,
    ⟨[4, 2, 55, 128], .F32⟩, ⟨[4, 2, 11, 128], .F32⟩]

/-- The spec scenario: concatenation of the five inputs along axis 2. -/
def scenarioConcat : Concat := ⟨scenarioInputs, 2⟩

/-- The spec scenario's destination, of shape `[4,2,206,128]`. -/
def scenarioDst : Tensor := ⟨[4, 2, 206, 128], .F32⟩

/-- A concat at the eight-input cap. -/
def eightInputConcat : Concat := ⟨List.replicate 8 tF32, 0⟩

/-- A two-op sequence of metadata writes. -/
def metadataSeq : List (Concat × Tensor) :=
  [(pairF32, dstPairF32), (eightInputConcat, ⟨[16, 2], .F32⟩)]

/-! Helper lemmas. -/

/-- Ceiling division covers: `a ≤ b * divCeil a b` for positive `b`. -/
theorem le_mul_divCeil (a b : Nat) (hb : 0 < b) : a ≤ b * divCeil a b := by
  unfold divCeil
  have h := Nat.div_add_mod (a + b - 1) b
  have h2 := Nat.mod_lt (a + b - 1) hb
  omega

/-- C3: for destination element count `N`, batch 64 and positive per-dimension
limit `L`, `calculate_dispatch` returns `(ceil(N/64), 1, 1)` when
`ceil(N/64) ≤ L` and `(L, ceil(ceil(N/64)/L), 1)` otherwise, and in both cases
`x * y * 64 ≥ N`. -/
theorem concat_calculate_dispatch_correct (c : Concat) (dst : Tensor)
    (L : Nat) (hL : 0 < L) :
    (if divCeil (numel dst.shape) 64 ≤ L
      then c.calculate_dispatch L dst = (divCeil (numel dst.shape) 64, 1, 1)
      else c.calculate_dispatch L dst =
        (L, divCeil (divCeil (numel dst.shape) 64) L, 1)) ∧
    numel dst.shape ≤
      (c.calculate_dispatch L dst).1 * (c.calculate_dispatch L dst).2.1 * 64 := by
  have hN := le_mul_divCeil (numel dst.shape) 64 (by norm_num)
  by_cases h : divCeil (numel dst.shape) 64 ≤ L
  · have hd : c.calculate_dispatch L dst = (divCeil (numel dst.shape) 64, 1, 1) := by
      unfold Concat.calculate_dispatch
      rw [if_neg (by omega)]
    rw [if_pos h, hd]
    refine ⟨rfl, ?_⟩
    show numel dst.shape ≤ divCeil (numel dst.shape) 64 * 1 * 64
    omega
  · have hd : c.calculate_dispatch L dst =
        (L, divCeil (divCeil (numel dst.shape) 64) L, 1) := by
      unfold Concat.calculate_dispatch
      rw [if_pos (by omega)]
    have hx := le_mul_divCeil (divCeil (numel dst.shape) 64) L hL
    rw [if_neg h, hd]
    refine ⟨rfl, ?_⟩
    show numel dst.shape ≤ L * divCeil (divCeil (numel dst.shape) 64) L * 64
    omega

/-- Witness for C3 at the spec scenario's destination (`numel 210944`) and the
WebGPU per-dimension limit 65535. -/
theorem concat_calculate_dispatch_correct_witness :
    0 < 65535 ∧
    ((if divCeil (numel scenarioDst.shape) 64 ≤ 65535
      then scenarioConcat.calculate_dispatch 65535 scenarioDst =
        (divCeil (numel scenarioDst.shape) 64, 1, 1)
      else scenarioConcat.calculate_dispatch 65535 scenarioDst =
        (65535, divCeil (divCeil (numel scenarioDst.shape) 64) 65535, 1)) ∧
    numel scenarioDst.shape ≤
      (scenarioConcat.calculate_dispatch 65535 scenarioDst).1 *
        (scenarioConcat.calculate_dispatch 65535 scenarioDst).2.1 * 64) :=
  ⟨by decide,
    concat_calculate_dispatch_correct scenarioConcat scenarioDst 65535 (by decide)⟩

/-- C4: for a nonempty input list, `compute_view` returns the first input's
shape with the concat axis replaced by the sum of all inputs' sizes along that
axis (with the first input's dtype and contiguous strides); consequently the
output shape has the first input's rank, carries the summed size at the concat
axis, and agrees with the first input elsewhere. -/
theorem concat_compute_view_correct (c : Concat) (first : Tensor)
    (rest : List Tensor) (h : c.inputs = first :: rest) :
    c.compute_view = some
      ⟨first.shape.set c.dim
          ((c.inputs.map (fun x => x.shape.getD c.dim 0)).sum),
        first.dt,
        stridesFrom (first.shape.set c.dim
          ((c.inputs.map (fun x => x.shape.getD c.dim 0)).sum))⟩ ∧
    ∀ sv, c.compute_view = some sv →
      sv.shape.length = first.shape.length ∧
      (c.dim < first.shape.length →
        sv.shape.getD c.dim 0 =
          (c.inputs.map (fun x => x.shape.getD c.dim 0)).sum) ∧
      (∀ i, i ≠ c.dim → sv.shape.getD i 0 = first.shape.getD i 0) := by
  obtain ⟨ins, dim⟩ := c
  simp only at h
  subst h
  refine ⟨rfl, ?_⟩
  intro sv hsv
  have hsv' : sv = ⟨first.shape.set dim
      (((first :: rest).map (fun x => x.shape.getD dim 0)).sum),
    first.dt,
    stridesFrom (first.shape.set dim
      (((first :: rest).map (fun x => x.shape.getD dim 0)).sum))⟩ := by
    have h2 : some (⟨first.shape.set dim
        (((first :: rest).map (fun x => x.shape.getD dim 0)).sum),
      first.dt,
      stridesFrom (first.shape.set dim
        (((first :: rest).map (fun x => x.shape.getD dim 0)).sum))⟩ :
          StorageView) = some sv := by
      rw [← hsv]; rfl
    exact (Option.some.inj h2).symm
  subst hsv'
  refine ⟨List.length_set _ _ _, ?_, ?_⟩
  · intro hdim
    simp [List.getD_eq_getElem?_getD, List.getElem?_set_self hdim]
  · intro i hi
    simp [List.getD_eq_getElem?_getD, List.getElem?_set_ne (Ne.symm hi)]

/-- Witness for C4: the spec scenario, concatenating shapes `[4,2,50,128]`,
`[4,2,13,128]`, `[4,2,77,128]`, `[4,2,55,128]`, `[4,2,11,128]` along axis 2,
yields output shape `[4,2,206,128]`. -/
theorem concat_compute_view_correct_witness :
    scenarioConcat.compute_view =
      some ⟨[4, 2, 206, 128], DType.F32, [52736, 26368, 128, 1]⟩ := by
  have h := (concat_compute_view_correct scenarioConcat
    ⟨[4, 2, 50, 128], .F32⟩
    [⟨[4, 2, 13, 128], .F32⟩, ⟨[4, 2, 77, 128], .F32⟩,
      ⟨[4, 2, 55, 128], .F32⟩, ⟨[4, 2, 11, 128], .F32⟩] rfl).1
  rw [h]
  rfl

/-- C2 counterexample: two Concats differing only in dtype (`f32` vs `f16`)
have equal kernel keys although their generated kernel sources differ (the
storage-binding types are `array<f32>` vs `array<f16>`). -/
theorem concat_kernel_key_dtype_collision :
    pairF32.kernel_key true dstPairF32 = pairF16.kernel_key true dstPairF16 ∧
    pairF32.build_kernel true dstPairF32 wgsDefault ≠
      pairF16.build_kernel true dstPairF16 wgsDefault := by
  constructor
  · rfl
  · decide

/-- C2 (amended): within the guarded input arity (at most 8 inputs), two
Concats share a kernel key exactly when they have the same number of inputs —
the key records arity and the constant `scalar` kernel element, independent of
inplace flag, destination, and dtype. -/
theorem concat_kernel_key_eq_iff_num_inputs (a b : Concat) (ia ib : Bool)
    (da db : Tensor) (ha : a.inputs.length ≤ 8) (hb : b.inputs.length ≤ 8) :
    (a.kernel_key ia da = b.kernel_key ib db) ↔
      a.inputs.length = b.inputs.length := by
  have key : ∀ n ≤ 8, ∀ m ≤ 8,
      (("concat" ++ toString n ++ "_" ++ "scalar" : String) =
        "concat" ++ toString m ++ "_" ++ "scalar" ↔ n = m) := by decide
  simpa [Concat.kernel_key, Concat.kernel_element, KernelElement.asStr]
    using key _ ha _ hb

/-- Witness for the amended C2 at the two-input `f32` and `f16` ops. -/
theorem concat_kernel_key_eq_iff_num_inputs_witness :
    pairF32.inputs.length ≤ 8 ∧ pairF16.inputs.length ≤ 8 ∧
    ((pairF32.kernel_key true dstPairF32 = pairF16.kernel_key false dstPairF16)
      ↔ pairF32.inputs.length = pairF16.inputs.length) :=
  ⟨by decide, by decide,
    concat_kernel_key_eq_iff_num_inputs pairF32 pairF16 true false
      dstPairF32 dstPairF16 (by decide) (by decide)⟩

/-- C9: for a destination dtype outside `{F32, F16}`, `build_kernel` returns a
`CompileError` whose message names the offending dtype and kernel element —
it neither succeeds nor panics. -/
theorem concat_build_kernel_unsupported (c : Concat) (inplace : Bool)
    (dst : Tensor) (wgs : Nat × Nat × Nat)
    (h32 : dst.dt ≠ DType.F32) (h16 : dst.dt ≠ DType.F16) :
    c.build_kernel inplace dst wgs =
      .err (.compileError ("Unsupported dtype " ++ dst.dt.debugStr ++
        " or kernel element " ++ (c.kernel_element dst).debugStr)) := by
  cases hdt : dst.dt with
  | F32 => exact absurd hdt h32
  | F16 => exact absurd hdt h16
  | I32 =>
    simp [Concat.build_kernel, Concat.kernel_element, hdt, DType.debugStr,
      KernelElement.debugStr]

/-- Witness for C9 at the two-input `i32` op. -/
theorem concat_build_kernel_unsupported_witness :
    dstPairI32.dt ≠ DType.F32 ∧ dstPairI32.dt ≠ DType.F16 ∧
    pairI32.build_kernel true dstPairI32 wgsDefault =
      .err (.compileError ("Unsupported dtype " ++ dstPairI32.dt.debugStr ++
        " or kernel element " ++ (pairI32.kernel_element dstPairI32).debugStr)) :=
  ⟨by decide, by decide,
    concat_build_kernel_unsupported pairI32 true dstPairI32 wgsDefault
      (by decide) (by decide)⟩

/-- C10 counterexample: for a Concat whose destination dtype has no generated
kernel (`i32`), `build_kernel` with `inplace = false` does not panic — the
dtype dispatch returns a `CompileError` before `register_bindings` runs. -/
theorem concat_build_kernel_noninplace_i32_returns_error :
    (pairI32.build_kernel false dstPairI32 wgsDefault).isPanic = false ∧
    pairI32.build_kernel false dstPairI32 wgsDefault =
      .err (.compileError "Unsupported dtype I32 or kernel element Scalar") := by
  decide

/-- C10 (amended): for every Concat whose destination dtype has a generated
kernel (`F32` or `F16`), `build_kernel` with `inplace = false` panics with
"Only inplace concat is supported" via `register_bindings` instead of
returning a `Result` error, even though the `Operation` trait's
`supports_inplace` defaults to `false`. -/
theorem concat_build_kernel_noninplace_panics (c : Concat) (dst : Tensor)
    (wgs : Nat × Nat × Nat) (h : dst.dt = DType.F32 ∨ dst.dt = DType.F16) :
    c.build_kernel false dst wgs =
      .panicked "Only inplace concat is supported" ∧
    supportsInplaceDefault = false := by
  refine ⟨?_, rfl⟩
  rcases h with h | h <;>
    simp [Concat.build_kernel, Concat.kernel_element, h, Concat.build_concat,
      Concat.register_bindings]

/-- Witness for the amended C10 at the two-input `f32` op. -/
theorem concat_build_kernel_noninplace_panics_witness :
    (dstPairF32.dt = DType.F32 ∨ dstPairF32.dt = DType.F16) ∧
    (pairF32.build_kernel false dstPairF32 wgsDefault =
        .panicked "Only inplace concat is supported" ∧
      supportsInplaceDefault = false) :=
  ⟨Or.inl rfl,
    concat_build_kernel_noninplace_panics pairF32 dstPairF32 wgsDefault
      (Or.inl rfl)⟩

/-- Folding command blocks over steps flattens to `bind`. -/
theorem foldl_append_commands (e : Executable) (steps : List CompiledOp)
    (acc : List GpuCommand) :
    steps.foldl (fun a step => a ++ e.stepCommands step) acc =
      acc ++ steps.flatMap e.stepCommands := by
  induction steps generalizing acc with
  | nil => simp
  | cons x xs ih => simp [ih, List.append_assoc]

/-- Storage bind-group commands are not dispatches. -/
theorem filter_isDispatch_bindGroups (l : List (Nat × Nat)) :
    (l.map (fun ig => GpuCommand.setBindGroup ig.1 ig.2 [])).filter
      GpuCommand.isDispatch = [] := by
  induction l with
  | nil => rfl
  | cons x xs ih => simpa [GpuCommand.isDispatch] using ih

/-- A step's command block contains exactly one dispatch: its own. -/
theorem filter_isDispatch_stepCommands (e : Executable) (s : CompiledOp) :
    (e.stepCommands s).filter GpuCommand.isDispatch =
      [GpuCommand.dispatchWorkgroups s.workgroupCount.1 s.workgroupCount.2.1
        s.workgroupCount.2.2] := by
  simp [Executable.stepCommands, List.filter_append, GpuCommand.isDispatch,
    filter_isDispatch_bindGroups]

/-- The dispatches of the whole pass are the steps' workgroup counts, in step
order. -/
theorem filter_isDispatch_bind (e : Executable) (steps : List CompiledOp) :
    (steps.flatMap e.stepCommands).filter GpuCommand.isDispatch =
      steps.map (fun s => GpuCommand.dispatchWorkgroups s.workgroupCount.1
        s.workgroupCount.2.1 s.workgroupCount.2.2) := by
  induction steps with
  | nil => rfl
  | cons x xs ih =>
    simp [List.filter_append, filter_isDispatch_stepCommands, ih]

/-- C8: `dispatch_operations` issues exactly one submission holding exactly
one compute pass whose commands are, for each step in order, the step's
pipeline, its storage bind groups at indices `0..k`, the shared uniform group
at index `k` with the step's own dynamic offset, then its dispatch; the pass
contains exactly one dispatch per compiled step, in step order. -/
theorem executable_single_submission_shape (e : Executable) :
    e.dispatch_operations = [⟨[e.steps.flatMap e.stepCommands]⟩] ∧
    e.dispatch_operations.length = 1 ∧
    ∀ sub ∈ e.dispatch_operations, sub.passes.length = 1 ∧
      ∀ pass ∈ sub.passes,
        pass.filter GpuCommand.isDispatch =
          e.steps.map (fun s => GpuCommand.dispatchWorkgroups
            s.workgroupCount.1 s.workgroupCount.2.1 s.workgroupCount.2.2) ∧
        pass.countP GpuCommand.isDispatch = e.steps.length := by
  have h0 : e.dispatch_operations =
      [⟨[e.steps.foldl (fun a step => a ++ e.stepCommands step) []]⟩] := rfl
  have h1 : e.dispatch_operations = [⟨[e.steps.flatMap e.stepCommands]⟩] := by
    rw [h0, foldl_append_commands]
    rfl
  refine ⟨h1, by simp [h1], ?_⟩
  intro sub hsub
  rw [h1, List.mem_singleton] at hsub
  subst hsub
  refine ⟨rfl, ?_⟩
  intro pass hpass
  rw [List.mem_singleton] at hpass
  subst hpass
  refine ⟨filter_isDispatch_bind e e.steps, ?_⟩
  rw [List.countP_eq_length_filter, filter_isDispatch_bind e e.steps,
    List.length_map]

/-- C5: at the spec scenario's destination element 0 (which lies in the first
input's cumulative bucket), the generated kernel performs TWO writes: the
correct copy from `X0[0]`, then — because the guarded blocks are sequential
`if`s, not `else if`s — block 1 also fires, wraps the axis index to
`2^32 - 50` by unsigned subtraction, and overwrites the element with a read
from `X1` at offset 4294960896, far beyond `X1`'s 13312 elements. The claim's
"exactly one source per output element" fails. -/
theorem concat_kernel_double_write_bug :
    scenarioConcat.kernelWrites scenarioDst 0 =
      [⟨0, 0⟩, ⟨1, 4294960896⟩] ∧
    numel (scenarioConcat.inputs.getD 1 tF32).shape ≤ 4294960896 := by
  constructor <;> decide

/-- A precondition violation falsifies the guard checks translated from
`OpGuards for Concat`. -/
theorem violates_check_fails (c : Concat) (h : c.ViolatesPrecondition) :
    (c.check_shapes && c.check_dtypes) = false := by
  obtain ⟨ins, dim⟩ := c
  cases hcs : Concat.check_shapes ⟨ins, dim⟩ with
  | false => simp [hcs]
  | true =>
    cases hcd : Concat.check_dtypes ⟨ins, dim⟩ with
    | false => simp [hcs, hcd]
    | true =>
      exfalso
      cases ins with
      | nil => simp [Concat.check_shapes] at hcs
      | cons first rest =>
        simp only [Concat.check_shapes, Bool.and_eq_true, List.all_eq_true,
          decide_eq_true_eq, beq_iff_eq, List.mem_range] at hcs
        simp only [Concat.check_dtypes, List.all_eq_true, beq_iff_eq] at hcd
        obtain ⟨⟨⟨⟨⟨h1, h2⟩, h3⟩, h4⟩, h5⟩, h6⟩ := hcs
        simp only [Concat.ViolatesPrecondition] at h
        have hfr : dim < first.rank :=
          h4 first (List.mem_cons_self first rest)
        rcases h with h | h | h | h | h | h | h
        · simp only [List.length_cons] at h h1
          omega
        · simp only [List.length_cons] at h h2
          omega
        · obtain ⟨x, hx, hr⟩ := h
          have := (h3 x hx).2
          omega
        · obtain ⟨x, hx, y, hy, hne⟩ := h
          exact hne ((h3 x hx).1.trans (h3 y hy).1.symm)
        · obtain ⟨x, hx, hle⟩ := h
          have := h4 x hx
          omega
        · obtain ⟨x, hx, y, hy, axis, hne, haxx, haxy, hsh⟩ := h
          have hrx := (h3 x hx).1
          have hry := (h3 y hy).1
          by_cases hax : axis < dim
          · have e1 := h5 axis hax x hx
            have e2 := h5 axis hax y hy
            exact hsh (e1.trans e2.symm)
          · have hmem : axis ∈ List.range' (dim + 1)
                (first.rank - (dim + 1)) := by
              rw [List.mem_range'_1]
              omega
            have e1 := h6 axis hmem x hx
            have e2 := h6 axis hmem y hy
            exact hsh (e1.trans e2.symm)
        · obtain ⟨x, hx, y, hy, hne⟩ := h
          exact hne ((hcd x hx).trans (hcd y hy).symm)

/-- C1: a Concat violating any of the enumerated preconditions compiles to an
`InvariantError` with zero device calls: the guard checks run and fail before
the pipeline build or the uniform-buffer write. -/
theorem concat_compile_invariant_error (c : Concat) (limit : Nat)
    (dst : Tensor) (h : c.ViolatesPrecondition) :
    (c.compile limit dst).result = .error .invariantError ∧
    (c.compile limit dst).deviceCalls = 0 := by
  have hf := violates_check_fails c h
  simp [Concat.compile, hf]

/-- Witness for C1 at a single-input Concat (violating the two-input
minimum). -/
theorem concat_compile_invariant_error_witness :
    singleInputConcat.ViolatesPrecondition ∧
    ((singleInputConcat.compile 65535 dstPairF32).result =
        .error .invariantError ∧
      (singleInputConcat.compile 65535 dstPairF32).deviceCalls = 0) :=
  have hv : singleInputConcat.ViolatesPrecondition := by
    simp only [Concat.ViolatesPrecondition]
    left
    decide
  ⟨hv, concat_compile_invariant_error singleInputConcat 65535 dstPairF32 hv⟩

/-- `roundUp` produces a multiple of the alignment. -/
theorem dvd_roundUp (n a : Nat) : a ∣ roundUp n a :=
  dvd_mul_left a (divCeil n a)

/-- `roundUp` fixes multiples of the alignment. -/
theorem roundUp_eq_self (a t : Nat) (ha : 0 < a) : roundUp (a * t) a = a * t := by
  unfold roundUp divCeil
  rw [Nat.add_sub_assoc (by omega : 1 ≤ a), Nat.mul_add_div ha,
    Nat.div_eq_of_lt (by omega), Nat.add_zero, Nat.mul_comm]

/-- `roundUp` distributes over an aligned base. -/
theorem roundUp_mul_add (a t k : Nat) (ha : 0 < a) :
    roundUp (a * t + k) a = a * t + roundUp k a := by
  unfold roundUp divCeil
  have h1 : a * t + k + a - 1 = a * t + (k + a - 1) := by omega
  rw [h1, Nat.mul_add_div ha, Nat.add_mul, Nat.mul_comm t a]

/-- `roundUp` of a size within one slot is one slot. -/
theorem roundUp_of_le (k a : Nat) (h0 : 0 < k) (hk : k ≤ a) :
    roundUp k a = a := by
  unfold roundUp divCeil
  have h1 : (k + a - 1) / a = 1 := by
    have ha : 0 < a := by omega
    rw [show k + a - 1 = a * 1 + (k - 1) from by omega, Nat.mul_add_div ha,
      Nat.div_eq_of_lt (by omega)]
  rw [h1, Nat.one_mul]

/-- An aligned member write within the slot succeeds, returning the current
cursor and advancing it by the member size. -/
theorem wsm_step (x r align size : Nat) (ha : 0 < align) (hdvd : align ∣ x)
    (hr : r ≤ x) (hfit : (x - r) + size ≤ UNIFORM_ALIGN) :
    CpuUniform.write_struct_member ⟨x, r⟩ align size =
      .ok (x, ⟨x + size, r⟩) := by
  obtain ⟨t, rfl⟩ := hdvd
  have hru : roundUp (align * t) align = align * t := roundUp_eq_self align t ha
  simp only [CpuUniform.write_struct_member, hru]
  rw [if_neg (by omega)]

/-- An aligned, in-slot member write whose result the caller discards. -/
theorem wmi_step (x r align size : Nat) (ha : 0 < align) (hdvd : align ∣ x)
    (hr : r ≤ x) (hfit : (x - r) + size ≤ UNIFORM_ALIGN) :
    CpuUniform.writeMemberIgnored ⟨x, r⟩ align size = ⟨x + size, r⟩ := by
  unfold CpuUniform.writeMemberIgnored
  rw [wsm_step x r align size ha hdvd hr hfit]

/-- The strides loop advances the cursor by 16 bytes per input. -/
theorem writeStridesLoop_trace (m : Nat) : ∀ (x r : Nat), 16 ∣ x → r ≤ x →
    (x - r) + 16 * m ≤ UNIFORM_ALIGN →
    CpuUniform.writeStridesLoop ⟨x, r⟩ m = ⟨x + 16 * m, r⟩ := by
  induction m with
  | zero => intro x r _ _ _; simp [CpuUniform.writeStridesLoop]
  | succ m ih =>
    intro x r hdvd hr hfit
    unfold CpuUniform.writeStridesLoop
    rw [wmi_step x r 16 16 (by omega) hdvd hr (by omega),
      ih (x + 16) r (dvd_add hdvd (dvd_refl 16)) (by omega) (by omega)]
    simp only [CpuUniform.mk.injEq, and_true]
    omega

/-- The cumulative-sum loop advances the cursor by 4 bytes per input and never
errors while within the slot. -/
theorem writeCumsumLoop_trace (m : Nat) : ∀ (x r : Nat), 4 ∣ x → r ≤ x →
    (x - r) + 4 * m ≤ UNIFORM_ALIGN →
    CpuUniform.writeCumsumLoop ⟨x, r⟩ m = .ok ⟨x + 4 * m, r⟩ := by
  induction m with
  | zero => intro x r _ _ _; simp [CpuUniform.writeCumsumLoop]
  | succ m ih =>
    intro x r hdvd hr hfit
    unfold CpuUniform.writeCumsumLoop
    rw [wsm_step x r 4 4 (by omega) hdvd hr (by omega)]
    show CpuUniform.writeCumsumLoop ⟨x + 4, r⟩ m = _
    rw [ih (x + 4) r (dvd_add hdvd (dvd_refl 4)) (by omega) (by omega)]
    simp only [Except.ok.injEq, CpuUniform.mk.injEq, and_true]
    omega

/-- Characterization of one Concat `write_metadata` call: for a nonempty input
list of at most 8 tensors, it succeeds, returns the rounded-up cursor position
(the aligned offset at which this op's struct starts), and leaves the cursor
exactly one slot past that offset. -/
theorem write_metadata_trace (c : Concat) (dst : Tensor) (u : CpuUniform)
    (first : Tensor) (rest : List Tensor) (hins : c.inputs = first :: rest)
    (h8 : c.inputs.length ≤ 8) :
    c.write_metadata u dst = some (.ok (roundUp u.cursor UNIFORM_ALIGN,
      ⟨roundUp u.cursor UNIFORM_ALIGN + UNIFORM_ALIGN,
        roundUp u.cursor UNIFORM_ALIGN + UNIFORM_ALIGN⟩)) := by
  obtain ⟨ins, dim⟩ := c
  simp only at hins
  subst hins
  simp only [List.length_cons] at h8
  obtain ⟨t, ht⟩ : UNIFORM_ALIGN ∣ roundUp u.cursor UNIFORM_ALIGN :=
    dvd_roundUp u.cursor UNIFORM_ALIGN
  simp only [Concat.write_metadata, List.length_cons]
  rw [show ((u.write_struct_end).2 : CpuUniform) =
    ⟨roundUp u.cursor UNIFORM_ALIGN, roundUp u.cursor UNIFORM_ALIGN⟩ from rfl]
  rw [ht]
  have h16 : (16 : Nat) ∣ UNIFORM_ALIGN * t :=
    dvd_mul_of_dvd_left (by decide) t
  have h4 : (4 : Nat) ∣ UNIFORM_ALIGN * t :=
    dvd_mul_of_dvd_left (by decide) t
  rw [writeStridesLoop_trace (rest.length + 1) (UNIFORM_ALIGN * t)
    (UNIFORM_ALIGN * t) h16 (Nat.le_refl _)
    (by simp only [UNIFORM_ALIGN]; omega)]
  rw [wmi_step (UNIFORM_ALIGN * t + 16 * (rest.length + 1)) (UNIFORM_ALIGN * t)
    16 16 (by omega) (dvd_add h16 (Dvd.dvd.mul_right (dvd_refl 16) _))
    (by omega) (by simp only [UNIFORM_ALIGN]; omega)]
  rw [wmi_step (UNIFORM_ALIGN * t + 16 * (rest.length + 1) + 16)
    (UNIFORM_ALIGN * t) 4 4 (by omega)
    (dvd_add (dvd_add h4 (Dvd.dvd.mul_right (by decide) _)) (by decide))
    (by omega) (by simp only [UNIFORM_ALIGN]; omega)]
  rw [writeCumsumLoop_trace (rest.length + 1)
    (UNIFORM_ALIGN * t + 16 * (rest.length + 1) + 16 + 4) (UNIFORM_ALIGN * t)
    (dvd_add (dvd_add (dvd_add h4 (Dvd.dvd.mul_right (by decide) _))
      (by decide)) (by decide))
    (by omega) (by simp only [UNIFORM_ALIGN]; omega)]
  show some (Except.ok
    ((((⟨UNIFORM_ALIGN * t + 16 * (rest.length + 1) + 16 + 4 +
          4 * (rest.length + 1), UNIFORM_ALIGN * t⟩ :
        CpuUniform).writeMemberIgnored 4 4).write_struct_end).1 -
        UNIFORM_ALIGN,
      (((⟨UNIFORM_ALIGN * t + 16 * (rest.length + 1) + 16 + 4 +
          4 * (rest.length + 1), UNIFORM_ALIGN * t⟩ :
        CpuUniform).writeMemberIgnored 4 4).write_struct_end).2)) =
    some (Except.ok (UNIFORM_ALIGN * t,
      ⟨UNIFORM_ALIGN * t + UNIFORM_ALIGN, UNIFORM_ALIGN * t + UNIFORM_ALIGN⟩))
  rw [wmi_step (UNIFORM_ALIGN * t + 16 * (rest.length + 1) + 16 + 4 +
      4 * (rest.length + 1)) (UNIFORM_ALIGN * t) 4 4 (by omega)
    (dvd_add (dvd_add (dvd_add (dvd_add h4
      (Dvd.dvd.mul_right (by decide) _)) (by decide)) (by decide))
      (Dvd.dvd.mul_right (dvd_refl 4) _))
    (by omega) (by simp only [UNIFORM_ALIGN]; omega)]
  have hend : roundUp (UNIFORM_ALIGN * t + 16 * (rest.length + 1) + 16 + 4 +
      4 * (rest.length + 1) + 4) UNIFORM_ALIGN =
      UNIFORM_ALIGN * t + UNIFORM_ALIGN := by
    rw [show UNIFORM_ALIGN * t + 16 * (rest.length + 1) + 16 + 4 +
        4 * (rest.length + 1) + 4 =
        UNIFORM_ALIGN * t + (20 * rest.length + 44) from by omega,
      roundUp_mul_add UNIFORM_ALIGN t (20 * rest.length + 44) (by decide),
      roundUp_of_le (20 * rest.length + 44) UNIFORM_ALIGN (by omega)
        (by simp only [UNIFORM_ALIGN]; omega)]
  simp only [CpuUniform.write_struct_end, hend, Nat.add_sub_cancel]

/-- A run of Concat metadata writes from an aligned cursor produces one
slot-start offset per op, each one slot apart. -/
theorem runMetadataWrites_trace (ps : List (Concat × Tensor)) :
    ∀ (m : Nat) (u : CpuUniform), u.cursor = UNIFORM_ALIGN * m →
    (∀ p ∈ ps, p.1.inputs ≠ [] ∧ p.1.inputs.length ≤ 8) →
    ∃ u', runMetadataWrites ps u =
      some (.ok ((List.range ps.length).map
        (fun i => UNIFORM_ALIGN * (m + i)), u')) ∧
      u'.cursor = UNIFORM_ALIGN * (m + ps.length) := by
  induction ps with
  | nil =>
    intro m u hu _
    exact ⟨u, by simp [runMetadataWrites], by simpa using hu⟩
  | cons p rest ih =>
    intro m u hu hv
    obtain ⟨c, dst⟩ := p
    obtain ⟨hne, h8⟩ := hv (c, dst) (List.mem_cons_self _ _)
    obtain ⟨first, restIns, hins⟩ : ∃ f r, c.inputs = f :: r := by
      cases hcins : c.inputs with
      | nil => exact absurd hcins hne
      | cons f r => exact ⟨f, r, rfl⟩
    have hwm := write_metadata_trace c dst u first restIns hins h8
    have hcur : roundUp u.cursor UNIFORM_ALIGN = UNIFORM_ALIGN * m := by
      rw [hu]; exact roundUp_eq_self UNIFORM_ALIGN m (by decide)
    rw [hcur] at hwm
    obtain ⟨u', hrun, hcur'⟩ := ih (m + 1)
      ⟨UNIFORM_ALIGN * m + UNIFORM_ALIGN, UNIFORM_ALIGN * m + UNIFORM_ALIGN⟩
      (by show UNIFORM_ALIGN * m + UNIFORM_ALIGN = _; ring)
      (fun q hq => hv q (List.mem_cons_of_mem _ hq))
    refine ⟨u', ?_, ?_⟩
    · simp only [runMetadataWrites, hwm, hrun, List.length_cons,
        List.range_succ_eq_map, List.map_cons, List.map_map]
      have hh : UNIFORM_ALIGN * m = UNIFORM_ALIGN * (m + 0) := by ring
      have hmap : List.map (fun i => UNIFORM_ALIGN * (m + 1 + i))
          (List.range rest.length) =
          List.map ((fun i => UNIFORM_ALIGN * (m + i)) ∘ Nat.succ)
            (List.range rest.length) := by
        apply List.map_congr_left
        intro a _
        simp only [Function.comp_apply, Nat.succ_eq_add_one]
        ring
      rw [← hh, ← hmap]
    · rw [hcur', List.length_cons]
      ring

/-- C7: every sequence of Concat `write_metadata` calls against one fresh
metadata packer succeeds and returns the offsets `0, UNIFORM_ALIGN,
2*UNIFORM_ALIGN, ...` in call order — strictly monotonically increasing, each
a multiple of `UNIFORM_ALIGN`, and each the rounded-up cursor position at
which that op's struct starts. -/
theorem concat_metadata_offsets_monotone_aligned
    (ps : List (Concat × Tensor))
    (h : ∀ p ∈ ps, p.1.inputs ≠ [] ∧ p.1.inputs.length ≤ 8) :
    (∃ u', runMetadataWrites ps CpuUniform.init =
      some (.ok ((List.range ps.length).map
        (fun i => UNIFORM_ALIGN * i), u'))) ∧
    ((List.range ps.length).map (fun i => UNIFORM_ALIGN * i)).Pairwise
      (· < ·) ∧
    ∀ off ∈ (List.range ps.length).map (fun i => UNIFORM_ALIGN * i),
      off % UNIFORM_ALIGN = 0 := by
  refine ⟨?_, ?_, ?_⟩
  · obtain ⟨u', hrun, -⟩ := runMetadataWrites_trace ps 0 CpuUniform.init
      (by simp [CpuUniform.init]) h
    refine ⟨u', ?_⟩
    rw [hrun]
    have hmap : List.map (fun i => UNIFORM_ALIGN * (0 + i))
        (List.range ps.length) =
        List.map (fun i => UNIFORM_ALIGN * i) (List.range ps.length) := by
      apply List.map_congr_left
      intro a _
      rw [Nat.zero_add]
    rw [hmap]
  · exact (List.pairwise_lt_range ps.length).map _
      (fun a b hab => by simp only [UNIFORM_ALIGN]; omega)
  · intro off hoff
    obtain ⟨i, -, rfl⟩ := List.mem_map.mp hoff
    exact Nat.mul_mod_right UNIFORM_ALIGN i

/-- Witness for C7 at a two-op sequence (a two-input op then an eight-input
op): offsets `[0, 256]`. -/
theorem concat_metadata_offsets_monotone_aligned_witness :
    (∀ p ∈ metadataSeq, p.1.inputs ≠ [] ∧ p.1.inputs.length ≤ 8) ∧
    ((∃ u', runMetadataWrites metadataSeq CpuUniform.init =
      some (.ok ((List.range metadataSeq.length).map
        (fun i => UNIFORM_ALIGN * i), u'))) ∧
    ((List.range metadataSeq.length).map (fun i => UNIFORM_ALIGN * i)).Pairwise
      (· < ·) ∧
    ∀ off ∈ (List.range metadataSeq.length).map (fun i => UNIFORM_ALIGN * i),
      off % UNIFORM_ALIGN = 0) :=
  ⟨by decide, concat_metadata_offsets_monotone_aligned metadataSeq (by decide)⟩

/-- C6: a Concat's packed metadata struct (one 16-byte `UVec4` per input plus
the destination's, one `u32` numel, one `u32` per cumulative sum, one `u32`
dim) fits the fixed `UNIFORM_ALIGN` slot whenever the guarded input arity
(at most 8) holds — the bound the `__IS_VALID_META` static check enforces —
and a member write that would exceed the per-op slot fails with
`UniformError`, returning no advanced packer state, so the cursor the next
op's offset is computed from is untouched. -/
theorem concat_meta_size_valid_and_oversize_uniform_error (c : Concat)
    (h8 : c.inputs.length ≤ 8) (u : CpuUniform) (align size : Nat)
    (hover : UNIFORM_ALIGN < roundUp u.cursor align + size - u.structStart) :
    isValidMeta c.metaSize = true ∧
    u.write_struct_member align size = .error .uniformError := by
  constructor
  · simp only [isValidMeta, Concat.metaSize, UNIFORM_ALIGN,
      decide_eq_true_eq]
    omega
  · simp only [CpuUniform.write_struct_member]
    rw [if_pos hover]

/-- Witness for C6: the eight-input op's struct (184 bytes) passes the static
check, and a 300-byte member write into a fresh packer fails with
`UniformError`. -/
theorem concat_meta_size_valid_and_oversize_uniform_error_witness :
    eightInputConcat.inputs.length ≤ 8 ∧
    UNIFORM_ALIGN < roundUp CpuUniform.init.cursor 4 + 300 -
      CpuUniform.init.structStart ∧
    (isValidMeta eightInputConcat.metaSize = true ∧
      CpuUniform.init.write_struct_member 4 300 = .error .uniformError) :=
  ⟨by decide, by decide,
    concat_meta_size_valid_and_oversize_uniform_error eightInputConcat
      (by decide) CpuUniform.init 4 300 (by decide)⟩

end Ratchet
